import Mathlib

/-!
Shallow embedding of src/version_checker.py (vaccfr versioncheck).

The script parses a markdown table of plugin versions, resolves the latest
release tag or commit for each plugin through the GitHub API, compares
versions, and files tracking issues for outdated entries.

Pure text processing (parse_readme, is_version_outdated, the v-stripping in
get_latest_version, issue titles and bodies) is translated directly from the
Python source, working on List Char so that every definition is structural
and kernel-computable.  The two external collaborators are modelled as data:
the GitHub API as per-plugin result records (GhRepo, PluginEnv), and the
packaging.version library as an abstract parser and order passed as
parameters (with a small concrete instance, releaseParse and releaseLt, used
for concrete evaluations).
-/

set_option maxRecDepth 4096

namespace VC

/-- Python str.strip() whitespace characters (ASCII subset; the input files
here are ASCII markdown). -/
def isPySpace (c : Char) : Bool :=
  c == ' ' || c == '\t' || c == '\n' || c == '\r' || c == '\x0b' || c == '\x0c'

/-- Python str.strip(): drop leading and trailing whitespace. -/
def pyStripL (cs : List Char) : List Char :=
  ((cs.dropWhile isPySpace).reverse.dropWhile isPySpace).reverse

/-- Python str.split(sep) for a one-character separator: keeps empty parts,
always returns at least one part. -/
def splitOnChar (sep : Char) : List Char → List (List Char)
  | [] => [[]]
  | c :: rest =>
    let r := splitOnChar sep rest
    if c == sep then [] :: r
    else
      match r with
      | [] => [[c]]
      | h :: t => (c :: h) :: t

/-- Does the first list occur as an initial run of the second?  (Used for
Python str.startswith and as a building block of substring search.) -/
def hasPre : List Char → List Char → Bool
  | [], _ => true
  | _ :: _, [] => false
  | p :: ps, c :: cs => p == c && hasPre ps cs

/-- Python `needle in haystack`: substring containment. -/
def containsSub (needle : List Char) : List Char → Bool
  | [] => needle.isEmpty
  | c :: rest => hasPre needle (c :: rest) || containsSub needle rest

/-- Drop an expected initial run, or fail. -/
def stripPre : List Char → List Char → Option (List Char)
  | [], cs => some cs
  | _ :: _, [] => none
  | p :: ps, c :: cs => if p == c then stripPre ps cs else none

/-- Character class [0-9a-f] of the commit-hash regular expression. -/
def isLowerHexDigit (c : Char) : Bool :=
  ('0' ≤ c && c ≤ '9') || ('a' ≤ c && c ≤ 'f')

/-- Python re.match of the anchored pattern [0-9a-f]-at-least-7 against a
whole (newline-free) cell: at least seven characters, all lowercase hex. -/
def matchesCommitHashRe (cs : List Char) : Bool :=
  decide (7 ≤ cs.length) && cs.all isLowerHexDigit

def notRBracket (c : Char) : Bool := c != ']'

def notRParen (c : Char) : Bool := c != ')'

/-- Match the markdown-link regular expression, name in square brackets then
URL in parentheses with both groups non-empty and bracket-free, anchored at
the start of the given character list.  Both groups are greedy runs, and as
they exclude their closing bracket no backtracking can rescue a failed
match, so this function is exactly one anchored attempt of Python's re
engine. -/
def matchLinkAt (cs : List Char) : Option (List Char × List Char) :=
  match cs with
  | '[' :: rest =>
    match rest.takeWhile notRBracket, rest.dropWhile notRBracket with
    | n :: ns, ']' :: '(' :: rest2 =>
      (match rest2.takeWhile notRParen, rest2.dropWhile notRParen with
        | u :: us, ')' :: _ => some (n :: ns, u :: us)
        | _, _ => none)
    | _, _ => none
  | _ => none

/-- Python re.search of the markdown-link pattern: leftmost position where
the anchored match succeeds. -/
def findLink : List Char → Option (List Char × List Char)
  | [] => none
  | c :: rest =>
    match matchLinkAt (c :: rest) with
    | some res => some res
    | none => findLink rest

/-- The literal part of the GitHub URL pattern. -/
def ghLit : List Char := ['g', 'i', 't', 'h', 'u', 'b', '.', 'c', 'o', 'm', '/']

def noSlash (c : Char) : Bool := c != '/'

/-- The second capturing group of the GitHub pattern: a non-empty slash-free
run at the front of what follows the separator, paired with the already
captured owner. -/
def matchSeg2 (rest2 ow : List Char) : Option (List Char × List Char) :=
  match rest2.takeWhile noSlash with
  | r :: rs => some (ow, r :: rs)
  | [] => none

/-- Match the pattern github.com/owner/repo (owner and repo non-empty
slash-free runs) anchored at the start of the list.  Again the greedy groups
exclude the separator, so failure here is failure of Python's re engine at
this position. -/
def matchGithubAt (cs : List Char) : Option (List Char × List Char) :=
  match stripPre ghLit cs with
  | none => none
  | some rest =>
    match rest.takeWhile noSlash, rest.dropWhile noSlash with
    | o :: os, '/' :: rest2 => matchSeg2 rest2 (o :: os)
    | _, _ => none

/-- Python re.search of the GitHub URL pattern: leftmost successful match
anywhere in the string.  Note this is a plain substring search, nothing
anchors it to the URL's host. -/
def findGithub : List Char → Option (List Char × List Char)
  | [] => none
  | c :: rest =>
    match matchGithubAt (c :: rest) with
    | some res => some res
    | none => findGithub rest

/-- Python str.rstrip with a slash argument: drop every trailing slash. -/
def rstripSlashes (cs : List Char) : List Char :=
  (cs.reverse.dropWhile (fun c => c == '/')).reverse

/-- The literal no-source marker checked against the first cell. -/
def noSrcMarker : List Char := "**NO SRC**".data

/-- A plugin record, as built by parse_readme. -/
structure Plugin where
  name : String
  github_url : String
  owner : String
  repo : String
  versions : List String
  is_commit_hash : Bool
deriving DecidableEq, Repr

/-- The commit-hash flag exactly as computed on line 90 of the source:
truthiness of the FIRST version cell conjoined with the regex match on it. -/
def commitFlagOfVersions (versions : List String) : Bool :=
  !(versions.headD "").data.isEmpty && matchesCommitHashRe (versions.headD "").data

/-- The cells of a table row: split on the bar, drop the empty leading and
trailing parts produced by the delimiter-bounded row, strip each cell. -/
def cellsOf (line : List Char) : List (List Char) :=
  (((splitOnChar '|' line).drop 1).dropLast).map pyStripL

/-- The body of the per-row branch of parse_readme: length guard, no-source
marker, markdown link extraction, trailing-slash normalization, GitHub
owner/repo extraction, version cells, commit-hash flag. -/
def parseRow (line : List Char) : Option Plugin :=
  if (cellsOf line).length < 2 then none
  else if containsSub noSrcMarker ((cellsOf line).headD []) then none
  else
    match findLink ((cellsOf line).headD []) with
    | none => none
    | some (nm, url0) =>
      match findGithub (rstripSlashes url0) with
      | none => none
      | some (ow, rp) =>
        some
          { name := String.mk nm
            github_url := String.mk (rstripSlashes url0)
            owner := String.mk ow
            repo := String.mk rp
            versions := ((cellsOf line).drop 1).map (fun v => String.mk (pyStripL v))
            is_commit_hash :=
              commitFlagOfVersions
                (((cellsOf line).drop 1).map (fun v => String.mk (pyStripL v))) }

def headerPre : List Char := "| Plugin".data

def sepPre : List Char := "| ---".data

/-- The line loop of parse_readme: strip the line; header and separator
lines switch the in-table flag on; once inside, a line not starting with a
bar ends the table; bar lines are parsed as rows. -/
def parseLines : List (List Char) → Bool → List Plugin
  | [], _ => []
  | l :: rest, in_table =>
    if hasPre headerPre (pyStripL l) || hasPre sepPre (pyStripL l) then
      parseLines rest true
    else if in_table && !(hasPre ['|'] (pyStripL l)) then []
    else if in_table && hasPre ['|'] (pyStripL l) then
      match parseRow (pyStripL l) with
      | some p => p :: parseLines rest in_table
      | none => parseLines rest in_table
    else parseLines rest in_table

/-- parse_readme on file CONTENT (the file read is outside the embedding):
split on newlines and run the line loop. -/
def parse_readme (content : String) : List Plugin :=
  parseLines (splitOnChar '\n' content.data) false

/-! ## The GitHub collaborator, modelled as data

A GithubException either carries status 404 (notFound) or some other
status. -/

inductive GhError where
  | notFound
  | other
deriving DecidableEq, Repr

/-- The remote state the resolver consumes for one repository: the default
branch, its commit shas newest first, the outcome of the latest-release
lookup, and the service-ordered tag names. -/
structure GhRepo where
  default_branch : String
  commits : List String
  latest_release : Except GhError String
  tags : List String

/-- Python tag.lstrip with argument v: drop EVERY leading lowercase v. -/
def pyLstripV (s : String) : String :=
  String.mk (s.data.dropWhile (fun c => c == 'v'))

/-- Python s[:7]. -/
def strTake (n : Nat) (s : String) : String := String.mk (s.data.take n)

/-- get_latest_version.  The gh.get_repo outcome is the Except wrapper; a
GithubException anywhere in the body is caught by the outer handler and
becomes none (the per-plugin resolution failure).  In commit mode the code
indexes commits[0]; an empty commit history would raise IndexError in
Python, outside the modelled GithubException behavior, and is rendered as
none here. -/
def get_latest_version (repo : Except GhError GhRepo) (is_commit_hash : Bool) :
    Option String :=
  match repo with
  | .error _ => none
  | .ok r =>
    if is_commit_hash then
      match r.commits with
      | sha :: _ => some (strTake 7 sha)
      | [] => none
    else
      match r.latest_release with
      | .ok tag => some (pyLstripV tag)
      | .error GhError.notFound =>
        (match r.tags with
          | t :: _ => some (pyLstripV t)
          | [] => none)
      | .error GhError.other => none

/-! ## The outdated comparator -/

/-- Python str.lower on one character (ASCII; the compared strings are
version numbers and commit hashes). -/
def pyLowerChar (c : Char) : Char :=
  if 'A' ≤ c && c ≤ 'Z' then Char.ofNat (c.toNat + 32) else c

/-- Python str.lower. -/
def pyLower (s : String) : String := String.mk (s.data.map pyLowerChar)

/-- is_version_outdated.  The packaging.version library is an external
dependency; it is passed in as an abstract parser pparse (version.parse,
with none for the InvalidVersion exception) and strict order plt.  Commit
mode never consults it; release mode compares the parses when both succeed
and falls back to plain string inequality when either raises. -/
def is_version_outdated {V : Type} (pparse : String → Option V)
    (plt : V → V → Bool) (current latest : String) (is_commit_hash : Bool) :
    Bool :=
  if is_commit_hash then decide (pyLower current ≠ pyLower latest)
  else
    match pparse current, pparse latest with
    | some a, some b => plt a b
    | _, _ => decide (current ≠ latest)

/-- A concrete instance of the version library for dotted-numeral releases,
used to run the comparator on concrete inputs. -/
def digitsToNat (cs : List Char) : Nat :=
  cs.foldl (fun acc c => acc * 10 + (c.toNat - '0'.toNat)) 0

/-- Parse a dotted numeral such as 1.2.0; anything else fails like
version.parse raising InvalidVersion. -/
def releaseParse (s : String) : Option (List Nat) :=
  let parts := splitOnChar '.' s.data
  if parts.all (fun p => !p.isEmpty && p.all Char.isDigit) then
    some (parts.map digitsToNat)
  else none

/-- Strict order on dotted numerals, missing components reading as zero. -/
def releaseLt : List Nat → List Nat → Bool
  | [], [] => false
  | [], b :: bs => decide (0 < b) || releaseLt [] bs
  | _ :: _, [] => false
  | a :: as, b :: bs => decide (a < b) || (a == b && releaseLt as bs)

/-! ## The issue reconciler -/

/-- The exact issue title built by both check_for_existing_issue and
create_issue. -/
def issueTitle (plugin_name new_version : String) : String :=
  "Update " ++ plugin_name ++ " to " ++ new_version

/-- check_for_existing_issue: scan the open version-update issue titles of
the target repository for the exact title.  A GithubException from the
search (the Except error) is caught, logged, and reported as false, exactly
as if no issue existed. -/
def check_for_existing_issue (issue_titles : Except GhError (List String))
    (plugin_name new_version : String) : Bool :=
  match issue_titles with
  | .ok titles => titles.any (fun t => t == issueTitle plugin_name new_version)
  | .error _ => false

/-- Observable actions of the reconciler and orchestrator: stdout lines,
stderr lines, and the remote issue-creation write with repository, title,
body and labels. -/
inductive Effect where
  | printOut : String → Effect
  | printErr : String → Effect
  | createIssue : String → String → String → List String → Effect
deriving DecidableEq, Repr

/-- Order-preserving deduplication.  Python builds the current-versions text
from set(plugin.versions), whose iteration order is unspecified; it is
modelled as first-occurrence order. -/
def dedupFirst : List String → List String
  | [] => []
  | v :: rest => v :: (dedupFirst rest).filter (fun w => w != v)

def joinCommaSep : List String → String
  | [] => ""
  | [s] => s
  | s :: rest => s ++ ", " ++ joinCommaSep rest

/-- The issue body template of create_issue. -/
def issueBody (p : Plugin) (new_version : String) : String :=
  let version_type := if p.is_commit_hash then "commit" else "version"
  let current_versions := joinCommaSep (dedupFirst p.versions)
  "A new " ++ version_type ++ " of **" ++ p.name ++ "** is available.\n\n" ++
    "**Current " ++ version_type ++ "(s)**: " ++ current_versions ++ "\n" ++
    "**Latest " ++ version_type ++ "**: " ++ new_version ++ "\n\n" ++
    "**Repository**: " ++ p.github_url ++ "\n" ++
    "**Release link**: " ++ p.github_url ++ "/" ++
    (if p.is_commit_hash then "commit" else "releases/tag/v") ++ new_version ++
    "\n\nThis issue was automatically created by the version checker.\n"

/-- create_issue.  In dry-run mode it only prints the would-be title, labels
and body.  Otherwise it performs the remote write (create_result is the
outcome of gh.get_repo plus repo.create_issue; a GithubException is caught
and logged to stderr). -/
def create_issue (create_result : Except GhError Nat) (repo_name : String)
    (p : Plugin) (new_version : String) (dry_run : Bool) : List Effect :=
  if dry_run then
    [Effect.printOut "\n[DRY RUN] Would create issue:",
     Effect.printOut ("  Title: " ++ issueTitle p.name new_version),
     Effect.printOut "  Labels: version-update, automated",
     Effect.printOut ("  Body:\n" ++ issueBody p new_version)]
  else
    match create_result with
    | .ok n =>
      [Effect.createIssue repo_name (issueTitle p.name new_version)
        (issueBody p new_version) ["version-update", "automated"],
       Effect.printOut ("Created issue #" ++ toString n ++ ": " ++
         issueTitle p.name new_version)]
    | .error _ =>
      [Effect.createIssue repo_name (issueTitle p.name new_version)
        (issueBody p new_version) ["version-update", "automated"],
       Effect.printErr ("Error creating issue for " ++ p.name)]

/-! ## The orchestrator -/

/-- The remote world one plugin interacts with during the main loop. -/
structure PluginEnv where
  repo : Except GhError GhRepo
  issue_titles : Except GhError (List String)
  create_result : Except GhError Nat

/-- The any-version-outdated loop of main: skip falsy (empty) entries, stop
at the first outdated one. -/
def any_outdated {V : Type} (pparse : String → Option V) (plt : V → V → Bool)
    (latest : String) (is_commit_hash : Bool) : List String → Bool
  | [] => false
  | current :: rest =>
    if !current.data.isEmpty &&
        is_version_outdated pparse plt current latest is_commit_hash then true
    else any_outdated pparse plt latest is_commit_hash rest

/-- One iteration of the main loop for one plugin: returns the emitted
effects, the updates_found increment, and the errors increment. -/
def processPlugin {V : Type} (pparse : String → Option V)
    (plt : V → V → Bool) (repo_name : String) (dry_run : Bool)
    (env : PluginEnv) (p : Plugin) : List Effect × Nat × Nat :=
  match get_latest_version env.repo p.is_commit_hash with
  | none =>
    ([Effect.printOut ("Checking " ++ p.name ++ "..."),
      Effect.printOut "ERROR"], 0, 1)
  | some latest =>
    if any_outdated pparse plt latest p.is_commit_hash p.versions then
      if check_for_existing_issue env.issue_titles p.name latest then
        ([Effect.printOut ("Checking " ++ p.name ++ "..."),
          Effect.printOut ("UPDATE AVAILABLE: " ++ latest),
          Effect.printOut "  Issue already exists, skipping"], 0, 0)
      else
        ([Effect.printOut ("Checking " ++ p.name ++ "..."),
          Effect.printOut ("UPDATE AVAILABLE: " ++ latest)] ++
          create_issue env.create_result repo_name p latest dry_run, 1, 0)
    else
      ([Effect.printOut ("Checking " ++ p.name ++ "..."),
        Effect.printOut "OK"], 0, 0)

/-- The main loop and exit decision: trace, updates_found, errors, and the
process exit code (sys.exit(1) when errors is positive, the implicit zero
exit otherwise).  Each plugin is paired with its remote world; argument
validation and file reading happen before this point in the source. -/
def mainRun {V : Type} (pparse : String → Option V) (plt : V → V → Bool)
    (repo_name : String) (dry_run : Bool)
    (items : List (Plugin × PluginEnv)) : List Effect × Nat × Nat × Nat :=
  let results := items.map (fun it => processPlugin pparse plt repo_name dry_run it.2 it.1)
  let trace := (results.map (fun r => r.1)).flatten
  let updates := (results.map (fun r => r.2.1)).sum
  let errors := (results.map (fun r => r.2.2)).sum
  (trace ++
    [Effect.printOut ("Summary: plugins checked " ++ toString items.length ++
      ", updates found " ++ toString updates ++ ", errors " ++ toString errors)],
   updates, errors, if 0 < errors then 1 else 0)

/-- Is an effect the remote issue-creation write? -/
def isWrite : Effect → Bool
  | Effect.createIssue _ _ _ _ => true
  | _ => false

/-! ## Definitions following the specification's words

These are NOT translations of the source; they render the spec sentences
under scrutiny, to be compared against the source-derived definitions. -/

/-- Following the spec's words: the commit flag is true when the FIRST
NON-EMPTY recorded version matches the commit-hash regular expression. -/
def specFirstNonEmptyFlag (versions : List String) : Bool :=
  match versions.find? (fun v => !v.data.isEmpty) with
  | some v => matchesCommitHashRe v.data
  | none => false

/-- Following the spec's words: the first two path segments after the host
of a URL of shape scheme-colon-slash-slash host slash path.  Returns none
when there is no host-path split or fewer than two non-empty leading
segments. -/
def afterSchemeSep : List Char → Option (List Char)
  | [] => none
  | c :: rest =>
    match stripPre [':', '/', '/'] (c :: rest) with
    | some r => some r
    | none => afterSchemeSep rest

/-- Following the spec's words: owner and repoName as the first two path
segments after the host. -/
def firstTwoPathSegments (url : String) : Option (String × String) :=
  match afterSchemeSep url.data with
  | none => none
  | some hostAndPath =>
    match hostAndPath.dropWhile noSlash with
    | '/' :: pathRest =>
      (match splitOnChar '/' pathRest with
        | s1 :: s2 :: _ =>
          if s1.isEmpty || s2.isEmpty then none
          else some (String.mk s1, String.mk s2)
        | _ => none)
    | _ => none

/-- Following the spec's (claim's) words: strip exactly one leading
lowercase v when present. -/
def specStripOneV (s : String) : String :=
  match s.data with
  | 'v' :: rest => String.mk rest
  | _ => s

/-! ## Concrete fixtures for counterexamples and witnesses -/

/-- A table whose only row has an empty first version cell and a commit
hash in the second. -/
def contentEmptyFirstCell : String :=
  "| Plugin | A | B |\n| --- | --- | --- |\n| [P](https://github.com/o/r) | | abcdef1 |"

/-- A table whose only row links a URL whose host is example.com and which
merely mentions github.com later in its path. -/
def contentForeignHost : String :=
  "| Plugin | Version |\n| --- | --- |\n| [P](https://example.com/a/b/github.com/x/y) | 1.0.0 |"

/-- A table with one commit-tracked row. -/
def contentHashRow : String :=
  "| Plugin | Version |\n| --- | --- |\n| [H](https://github.com/o/r) | abcdef1 |"

/-- The record parse_readme produces from contentHashRow. -/
def pluginHash : Plugin :=
  { name := "H", github_url := "https://github.com/o/r", owner := "o",
    repo := "r", versions := ["abcdef1"], is_commit_hash := true }

/-- A release-tracked plugin recorded at 1.2.0. -/
def pluginRel : Plugin :=
  { name := "P", github_url := "https://github.com/o/r", owner := "o",
    repo := "r", versions := ["1.2.0"], is_commit_hash := false }

/-- A repository whose latest release is tagged v1.3.0. -/
def repoRel : GhRepo :=
  { default_branch := "main", commits := [], latest_release := Except.ok "v1.3.0",
    tags := [] }

/-- A repository whose latest release is tagged vv1.0.0. -/
def repoDoubleV : GhRepo :=
  { default_branch := "main", commits := [], latest_release := Except.ok "vv1.0.0",
    tags := [] }

/-- A healthy remote world for pluginRel: release v1.3.0, no open issues,
creation would succeed as issue 1. -/
def envRel : PluginEnv :=
  { repo := Except.ok repoRel, issue_titles := Except.ok [],
    create_result := Except.ok 1 }

/-- Same world but the issue search fails with a non-404 error. -/
def envSearchFail : PluginEnv :=
  { repo := Except.ok repoRel, issue_titles := Except.error GhError.other,
    create_result := Except.ok 1 }

/-! ## Helper lemmas -/

lemma str_append_data (a b : String) : (a ++ b).data = a.data ++ b.data := rfl

lemma ne_of_data_head {s t : String} (h : s.data.head? ≠ t.data.head?) :
    s ≠ t := fun e => h (by rw [e])

lemma ne_empty_iff_data (v : String) : v ≠ "" ↔ v.data ≠ [] := by
  constructor
  · intro h hd
    exact h (String.ext hd)
  · intro h he
    exact h (by rw [he])

lemma not_isEmpty_iff_ne_empty (v : String) :
    (!v.data.isEmpty) = true ↔ v ≠ "" := by
  rw [ne_empty_iff_data]
  cases v.data <;> simp

lemma stripPre_self_append (p l : List Char) : stripPre p (p ++ l) = some l := by
  induction p with
  | nil => rfl
  | cons c cs ih => simp [stripPre, ih]

lemma head_dropWhile_v (l : List Char) :
    ((l.dropWhile (fun c => c == 'v')).head?) ≠ some 'v' := by
  induction l with
  | nil => simp
  | cons c cs ih =>
    by_cases h : c = 'v'
    · simpa [List.dropWhile_cons, h] using ih
    · simp [List.dropWhile_cons, h]

lemma matchSeg2_some {rest2 ow o r : List Char}
    (h : matchSeg2 rest2 ow = some (o, r)) : o = ow ∧ r ≠ [] := by
  unfold matchSeg2 at h
  split at h
  · injection h with h
    rw [Prod.mk.injEq] at h
    exact ⟨h.1.symm, by simp [← h.2]⟩
  · exact absurd h (by simp)

lemma matchGithubAt_some {cs o r : List Char}
    (h : matchGithubAt cs = some (o, r)) : o ≠ [] ∧ r ≠ [] := by
  unfold matchGithubAt at h
  split at h
  · exact absurd h (by simp)
  · split at h
    · obtain ⟨ho, hr⟩ := matchSeg2_some h
      exact ⟨by simp [ho], hr⟩
    · exact absurd h (by simp)

lemma findGithub_some {cs o r : List Char}
    (h : findGithub cs = some (o, r)) : o ≠ [] ∧ r ≠ [] := by
  induction cs with
  | nil => simp [findGithub] at h
  | cons c rest ih =>
    rw [findGithub] at h
    split at h
    · injection h with h
      subst h
      exact matchGithubAt_some (by assumption)
    · exact ih h

/-- Everything a successfully parsed row guarantees about the record it
produces. -/
lemma parseRow_inv {line : List Char} {p : Plugin}
    (h : parseRow line = some p) :
    2 ≤ (cellsOf line).length ∧
    p.versions = ((cellsOf line).drop 1).map (fun v => String.mk (pyStripL v)) ∧
    p.is_commit_hash = commitFlagOfVersions p.versions ∧
    findGithub p.github_url.data = some (p.owner.data, p.repo.data) := by
  unfold parseRow at h
  split at h
  · exact absurd h (by simp)
  next hlen =>
    split at h
    · exact absurd h (by simp)
    · split at h
      · exact absurd h (by simp)
      · split at h
        · exact absurd h (by simp)
        next ow rp hfg =>
          injection h with h
          subst h
          exact ⟨by omega, rfl, rfl, hfg⟩

/-- Every record of a parse pass comes from some successfully parsed row. -/
lemma mem_parseLines {lines : List (List Char)} {t : Bool} {p : Plugin}
    (h : p ∈ parseLines lines t) : ∃ l, parseRow l = some p := by
  induction lines generalizing t with
  | nil => simp [parseLines] at h
  | cons l rest ih =>
    rw [parseLines] at h
    split at h
    · exact ih h
    · split at h
      · simp at h
      · split at h
        · split at h
          next q hq =>
            rcases List.mem_cons.mp h with he | hm
            · exact ⟨pyStripL l, by rw [hq, he]⟩
            · exact ih hm
          · exact ih h
        · exact ih h

/-! ## C1: the commit-identifier flag -/

/-- C1 as stated is false: the flag is computed from the FIRST version
cell, not the first non-empty one.  On a row whose first cell is empty and
whose second holds a seven-character hash, the code leaves the flag false
while the claim demands true. -/
theorem c1_counterexample :
    (parse_readme contentEmptyFirstCell).map Plugin.is_commit_hash = [false] ∧
    (parse_readme contentEmptyFirstCell).map
      (fun p => specFirstNonEmptyFlag p.versions) = [true] := by
  constructor <;> decide

/-- C1 amended: for every parsed record, the flag is true iff the FIRST
entry of recordedVersions (empty or not) is non-empty and matches the
commit-hash regular expression; an empty first cell forces false whatever
the later cells hold. -/
theorem c1_flag (content : String) (p : Plugin)
    (h : p ∈ parse_readme content) :
    p.is_commit_hash = commitFlagOfVersions p.versions := by
  obtain ⟨l, hl⟩ := mem_parseLines h
  exact (parseRow_inv hl).2.2.1

/-- Witness for C1: the amended flag law evaluated on the parse of a
one-row commit-tracked table. -/
theorem c1_flag_witness :
    pluginHash.is_commit_hash = commitFlagOfVersions pluginHash.versions :=
  c1_flag contentHashRow pluginHash (by decide)

/-! ## C8: record invariants -/

/-- C8: every record parse_readme produces has a non-empty recordedVersions
list and non-empty owner and repoName. -/
theorem c8_invariants (content : String) (p : Plugin)
    (h : p ∈ parse_readme content) :
    p.versions ≠ [] ∧ p.owner ≠ "" ∧ p.repo ≠ "" := by
  obtain ⟨l, hl⟩ := mem_parseLines h
  obtain ⟨hlen, hv, _, hfg⟩ := parseRow_inv hl
  obtain ⟨how, hrp⟩ := findGithub_some hfg
  refine ⟨?_, (ne_empty_iff_data p.owner).mpr how, (ne_empty_iff_data p.repo).mpr hrp⟩
  rw [hv]
  simp only [ne_eq, List.map_eq_nil_iff, List.drop_eq_nil_iff]
  omega

/-- Witness for C8: the invariants evaluated on the parse of a concrete
table. -/
theorem c8_invariants_witness :
    pluginHash.versions ≠ [] ∧ pluginHash.owner ≠ "" ∧ pluginHash.repo ≠ "" :=
  c8_invariants contentHashRow pluginHash (by decide)

/-! ## C3: owner and repository extraction -/

lemma noSlash_of_ne {c : Char} (h : c ≠ '/') : noSlash c = true := by
  simp [noSlash, h]

lemma takeWhile_noSlash_append {o : List Char} (r' : List Char)
    (h : ∀ c ∈ o, c ≠ '/') : (o ++ '/' :: r').takeWhile noSlash = o := by
  induction o with
  | nil => simp [List.takeWhile_cons, noSlash]
  | cons a as ih =>
    simp [List.cons_append, List.takeWhile_cons,
      noSlash_of_ne (h a (List.mem_cons_self a as)),
      ih (fun c hc => h c (List.mem_cons_of_mem a hc))]

lemma dropWhile_noSlash_append {o : List Char} (r' : List Char)
    (h : ∀ c ∈ o, c ≠ '/') : (o ++ '/' :: r').dropWhile noSlash = '/' :: r' := by
  induction o with
  | nil => simp [List.dropWhile_cons, noSlash]
  | cons a as ih =>
    simp only [List.cons_append, List.dropWhile_cons,
      noSlash_of_ne (h a (List.mem_cons_self a as))]
    exact ih (fun c hc => h c (List.mem_cons_of_mem a hc))

lemma takeWhile_noSlash_all {r : List Char} (h : ∀ c ∈ r, c ≠ '/') :
    r.takeWhile noSlash = r := by
  induction r with
  | nil => rfl
  | cons a as ih =>
    simp [List.takeWhile_cons, noSlash_of_ne (h a (List.mem_cons_self a as)),
      ih (fun c hc => h c (List.mem_cons_of_mem a hc))]

lemma matchGithubAt_anchored {o r : List Char} (ho : o ≠ []) (hr : r ≠ [])
    (hso : ∀ c ∈ o, c ≠ '/') (hsr : ∀ c ∈ r, c ≠ '/') :
    matchGithubAt (ghLit ++ (o ++ '/' :: r)) = some (o, r) := by
  have h1 := stripPre_self_append ghLit (o ++ '/' :: r)
  unfold matchGithubAt
  split
  next heq => rw [h1] at heq; exact absurd heq (by simp)
  next rest heq =>
    rw [h1] at heq
    injection heq with heq
    subst heq
    rw [takeWhile_noSlash_append r hso, dropWhile_noSlash_append r hso]
    cases o with
    | nil => exact absurd rfl ho
    | cons a as =>
      show matchSeg2 r (a :: as) = some (a :: as, r)
      unfold matchSeg2
      rw [takeWhile_noSlash_all hsr]
      cases r with
      | nil => exact absurd rfl hr
      | cons b bs => rfl

lemma findGithub_cons_none {c : Char} {rest : List Char}
    (h : matchGithubAt (c :: rest) = none) :
    findGithub (c :: rest) = findGithub rest := by
  rw [findGithub, h]

lemma matchGithubAt_cons_ne {c : Char} (rest : List Char) (h : c ≠ 'g') :
    matchGithubAt (c :: rest) = none := by
  unfold matchGithubAt
  have hs : stripPre ghLit (c :: rest) = none := by
    unfold ghLit stripPre
    simp [Ne.symm h]
  rw [hs]

/-- C3 as stated is false: the GitHub pattern is an unanchored substring
search.  A row linking https://example.com/a/b/github.com/x/y (host
example.com, first two path segments a and b) still produces a record, and
its owner and repoName are x and y, taken from later in the URL. -/
theorem c3_counterexample :
    (parse_readme contentForeignHost).map (fun p => (p.owner, p.repo)) =
      [("x", "y")] ∧
    (parse_readme contentForeignHost).map
      (fun p => firstTwoPathSegments p.github_url) = [some ("a", "b")] ∧
    (("x" : String), ("y" : String)) ≠ (("a" : String), ("b" : String)) := by
  refine ⟨by decide, by decide, by decide⟩

/-- C3 amended: owner and repoName are exactly the two slash-free segments
captured at the LEFTMOST occurrence of the github.com pattern anywhere in
the link URL (rows whose URL contains no such occurrence produce no
record); when the URL has the shape https-github.com-owner-repo, so that
its host really is github.com, those captures are precisely the first two
path segments after the host. -/
theorem c3_owner_repo :
    (∀ content p, p ∈ parse_readme content →
      findGithub p.github_url.data = some (p.owner.data, p.repo.data)) ∧
    (∀ o r : List Char, o ≠ [] → r ≠ [] →
      (∀ c ∈ o, c ≠ '/') → (∀ c ∈ r, c ≠ '/') →
      findGithub ("https://github.com/".data ++ (o ++ '/' :: r)) =
        some (o, r)) := by
  constructor
  · intro content p h
    obtain ⟨l, hl⟩ := mem_parseLines h
    exact (parseRow_inv hl).2.2.2
  · intro o r ho hr hso hsr
    have hdecomp : "https://github.com/".data ++ (o ++ '/' :: r) =
        'h' :: 't' :: 't' :: 'p' :: 's' :: ':' :: '/' :: '/' ::
          (ghLit ++ (o ++ '/' :: r)) := by
      have hlit : "https://github.com/".data =
          'h' :: 't' :: 't' :: 'p' :: 's' :: ':' :: '/' :: '/' :: ghLit := by
        decide
      rw [hlit]
      simp
    rw [hdecomp]
    rw [findGithub_cons_none (matchGithubAt_cons_ne _ (by decide)),
      findGithub_cons_none (matchGithubAt_cons_ne _ (by decide)),
      findGithub_cons_none (matchGithubAt_cons_ne _ (by decide)),
      findGithub_cons_none (matchGithubAt_cons_ne _ (by decide)),
      findGithub_cons_none (matchGithubAt_cons_ne _ (by decide)),
      findGithub_cons_none (matchGithubAt_cons_ne _ (by decide)),
      findGithub_cons_none (matchGithubAt_cons_ne _ (by decide)),
      findGithub_cons_none (matchGithubAt_cons_ne _ (by decide))]
    have hmatch := matchGithubAt_anchored ho hr hso hsr
    cases hg : ghLit ++ (o ++ '/' :: r) with
    | nil => simp [ghLit] at hg
    | cons c rest =>
      rw [hg] at hmatch
      rw [findGithub, hmatch]

/-- Witness for C3: the amended extraction law at a concrete record and at
concrete path segments. -/
theorem c3_owner_repo_witness :
    findGithub pluginHash.github_url.data =
      some (pluginHash.owner.data, pluginHash.repo.data) ∧
    findGithub ("https://github.com/".data ++ (['a', 'a'] ++ '/' :: ['b'])) =
      some (['a', 'a'], ['b']) :=
  ⟨c3_owner_repo.1 contentHashRow pluginHash (by decide),
   c3_owner_repo.2 ['a', 'a'] ['b'] (by decide) (by decide) (by decide)
     (by decide)⟩

/-! ## C2: the outdated comparator -/

/-- C2: for all recorded/latest version strings, any version library, and
mode flag, is_version_outdated returns: in commit mode, true iff the two
strings differ after Python lower-casing; in release mode, the library's
strict-less-than when both strings parse, and plain string inequality when
either fails to parse (no exception escapes). -/
theorem c2_comparator {V : Type} (pparse : String → Option V)
    (plt : V → V → Bool) (current latest : String) :
    (is_version_outdated pparse plt current latest true = true ↔
      pyLower current ≠ pyLower latest) ∧
    (∀ a b, pparse current = some a → pparse latest = some b →
      is_version_outdated pparse plt current latest false = plt a b) ∧
    ((pparse current = none ∨ pparse latest = none) →
      (is_version_outdated pparse plt current latest false = true ↔
        current ≠ latest)) := by
  refine ⟨by simp [is_version_outdated], ?_, ?_⟩
  · intro a b ha hb
    simp [is_version_outdated, ha, hb]
  · intro h
    rcases h with h | h <;>
      cases hc : pparse current <;> cases hl : pparse latest <;>
        simp_all [is_version_outdated]

/-- Witness for C2: evaluates the comparator at concrete inputs through the
theorem, covering the parse-success case (1.2.0 against 1.3.0) and the
unparsable fallback (banana against 1.0.0). -/
theorem c2_comparator_witness :
    is_version_outdated releaseParse releaseLt "1.2.0" "1.3.0" false =
      releaseLt [1, 2, 0] [1, 3, 0] ∧
    is_version_outdated releaseParse releaseLt "banana" "1.0.0" false = true ∧
    is_version_outdated releaseParse releaseLt "ABCDEF1" "abcdef1" true = false :=
  ⟨(c2_comparator releaseParse releaseLt "1.2.0" "1.3.0").2.1 [1, 2, 0] [1, 3, 0]
      (by decide) (by decide),
   ((c2_comparator releaseParse releaseLt "banana" "1.0.0").2.2
      (Or.inl (by decide))).mpr (by decide),
   by decide⟩

/-! ## C4: the v-prefix stripping of the resolver -/

/-- C4 as stated is false: the resolver strips EVERY leading lowercase v,
not exactly one.  At a release tagged vv1.0.0 the code returns 1.0.0 while
the claim demands v1.0.0. -/
theorem c4_counterexample :
    get_latest_version (Except.ok repoDoubleV) false = some "1.0.0" ∧
    specStripOneV "vv1.0.0" = "v1.0.0" ∧
    ("1.0.0" : String) ≠ "v1.0.0" := by
  refine ⟨by decide, by decide, by decide⟩

/-- C4 amended: in release mode every returned name is the release tag (or,
after a 404 on the latest release, the first listed tag) with ALL of its
leading lowercase v characters stripped; in particular the result never
starts with a lowercase v. -/
theorem c4_strip (r : GhRepo) (s : String)
    (h : get_latest_version (Except.ok r) false = some s) :
    (∃ t, (r.latest_release = Except.ok t ∨
        (r.latest_release = Except.error GhError.notFound ∧
          r.tags.head? = some t)) ∧
      s.data = t.data.dropWhile (fun c => c == 'v')) ∧
    s.data.head? ≠ some 'v' := by
  unfold get_latest_version at h
  simp only [if_neg (by simp : ¬ (false = true))] at h
  rcases hr : r.latest_release with e | tag
  · rw [hr] at h
    cases e with
    | notFound =>
      cases ht : r.tags with
      | nil => rw [ht] at h; exact absurd h (by simp)
      | cons t ts =>
        rw [ht] at h
        have hs : s = pyLstripV t := by
          have := h; injection this with h2; exact h2.symm
        subst hs
        exact ⟨⟨t, Or.inr ⟨rfl, rfl⟩, rfl⟩, head_dropWhile_v t.data⟩
    | other => exact absurd h (by simp)
  · rw [hr] at h
    have hs : s = pyLstripV tag := by injection h with h2; exact h2.symm
    subst hs
    exact ⟨⟨tag, Or.inl rfl, rfl⟩, head_dropWhile_v tag.data⟩

/-- Witness for C4: the amended stripping law evaluated at the vv1.0.0
release. -/
theorem c4_strip_witness :
    ("1.0.0" : String).data.head? ≠ some 'v' :=
  (c4_strip repoDoubleV "1.0.0" (by decide)).2

/-! ## C5: the any-version-outdated decision -/

lemma any_outdated_iff {V : Type} (pparse : String → Option V)
    (plt : V → V → Bool) (latest : String) (hash : Bool) (vs : List String) :
    any_outdated pparse plt latest hash vs = true ↔
      ∃ v ∈ vs, v ≠ "" ∧ is_version_outdated pparse plt v latest hash = true := by
  induction vs with
  | nil => simp [any_outdated]
  | cons v rest ih =>
    rw [any_outdated]
    by_cases h : (!v.data.isEmpty &&
        is_version_outdated pparse plt v latest hash) = true
    · rw [if_pos h]
      rw [Bool.and_eq_true] at h
      simp only [true_iff]
      exact ⟨v, List.mem_cons_self v rest,
        (not_isEmpty_iff_ne_empty v).mp h.1, h.2⟩
    · rw [if_neg h, ih]
      constructor
      · rintro ⟨x, hx, hxe, hxo⟩
        exact ⟨x, List.mem_cons_of_mem v hx, hxe, hxo⟩
      · rintro ⟨x, hx, hxe, hxo⟩
        rcases List.mem_cons.mp hx with he | hm
        · subst he
          refine absurd ?_ h
          rw [Bool.and_eq_true]
          exact ⟨(not_isEmpty_iff_ne_empty x).mpr hxe, hxo⟩
        · exact ⟨x, hm, hxe, hxo⟩

lemma head_update (latest : String) :
    ("UPDATE AVAILABLE: " ++ latest).data.head? = some 'U' := rfl

/-- processPlugin once the resolution has succeeded. -/
lemma processPlugin_some {V : Type} (pparse : String → Option V)
    (plt : V → V → Bool) (rn : String) (dr : Bool) (env : PluginEnv)
    (p : Plugin) (latest : String)
    (h : get_latest_version env.repo p.is_commit_hash = some latest) :
    processPlugin pparse plt rn dr env p =
      if any_outdated pparse plt latest p.is_commit_hash p.versions then
        if check_for_existing_issue env.issue_titles p.name latest then
          ([Effect.printOut ("Checking " ++ p.name ++ "..."),
            Effect.printOut ("UPDATE AVAILABLE: " ++ latest),
            Effect.printOut "  Issue already exists, skipping"], 0, 0)
        else
          ([Effect.printOut ("Checking " ++ p.name ++ "..."),
            Effect.printOut ("UPDATE AVAILABLE: " ++ latest)] ++
            create_issue env.create_result rn p latest dr, 1, 0)
      else
        ([Effect.printOut ("Checking " ++ p.name ++ "..."),
          Effect.printOut "OK"], 0, 0) := by
  unfold processPlugin
  rw [h]

lemma head_checking (nm : String) :
    ("Checking " ++ nm ++ "...").data.head? = some 'C' := rfl

/-- C5: when the latest version resolves, the plugin is reported outdated
(the UPDATE AVAILABLE line is emitted) iff SOME non-empty entry of its
recordedVersions is outdated against it; moreover the loop short-circuits:
a leading outdated non-empty entry decides the scan whatever follows it. -/
theorem c5_any_version {V : Type} (pparse : String → Option V)
    (plt : V → V → Bool) (rn : String) (dr : Bool) (env : PluginEnv)
    (p : Plugin) (latest : String)
    (h : get_latest_version env.repo p.is_commit_hash = some latest) :
    ((Effect.printOut ("UPDATE AVAILABLE: " ++ latest) ∈
        (processPlugin pparse plt rn dr env p).1) ↔
      ∃ v ∈ p.versions, v ≠ "" ∧
        is_version_outdated pparse plt v latest p.is_commit_hash = true) ∧
    (∀ v rest, v ≠ "" →
      is_version_outdated pparse plt v latest p.is_commit_hash = true →
      any_outdated pparse plt latest p.is_commit_hash (v :: rest) = true) := by
  constructor
  · rw [← any_outdated_iff pparse plt latest p.is_commit_hash p.versions]
    rw [processPlugin_some pparse plt rn dr env p latest h]
    by_cases ho :
        any_outdated pparse plt latest p.is_commit_hash p.versions = true
    · rw [if_pos ho]
      simp only [ho, iff_true]
      by_cases hex :
          check_for_existing_issue env.issue_titles p.name latest = true
      · rw [if_pos hex]
        simp
      · rw [if_neg hex]
        simp
    · rw [if_neg ho]
      constructor
      · intro hmem
        exfalso
        have hne : ∀ t : String, t.data.head? ≠ some 'U' →
            Effect.printOut ("UPDATE AVAILABLE: " ++ latest) ≠
              Effect.printOut t := by
          intro t ht he
          exact ht (by rw [← Effect.printOut.inj he, head_update])
        rcases List.mem_cons.mp hmem with he | hm
        · exact hne _ (by rw [head_checking]; decide) he
        · rcases List.mem_cons.mp hm with he | hm2
          · exact hne "OK" (by decide) he
          · simp at hm2
      · intro hany
        exact absurd hany ho
  · intro v rest hv hout
    rw [any_outdated, if_pos]
    rw [Bool.and_eq_true]
    exact ⟨(not_isEmpty_iff_ne_empty v).mpr hv, hout⟩

/-- Witness for C5: the reported-outdated law evaluated on a release plugin
recorded at 1.2.0 whose latest release resolves to 1.3.0. -/
theorem c5_any_version_witness :
    Effect.printOut ("UPDATE AVAILABLE: " ++ "1.3.0") ∈
      (processPlugin releaseParse releaseLt "o/r" true envRel pluginRel).1 :=
  ((c5_any_version releaseParse releaseLt "o/r" true envRel pluginRel "1.3.0"
      (by decide)).1).mpr ⟨"1.2.0", by decide, by decide, by decide⟩

/-! ## C6: error counting and the exit status -/

lemma processPlugin_errors {V : Type} (pparse : String → Option V)
    (plt : V → V → Bool) (rn : String) (dr : Bool) (env : PluginEnv)
    (p : Plugin) :
    (processPlugin pparse plt rn dr env p).2.2 =
      if (get_latest_version env.repo p.is_commit_hash).isNone then 1 else 0 := by
  unfold processPlugin
  cases hg : get_latest_version env.repo p.is_commit_hash with
  | none => rfl
  | some latest =>
    simp only [Option.isNone_some, Bool.false_eq_true, if_false]
    split
    · split <;> rfl
    · rfl

lemma mainRun_errors {V : Type} (pparse : String → Option V)
    (plt : V → V → Bool) (rn : String) (dr : Bool)
    (items : List (Plugin × PluginEnv)) :
    (mainRun pparse plt rn dr items).2.2.1 =
      (items.filter
        (fun it => (get_latest_version it.2.repo it.1.is_commit_hash).isNone)).length := by
  show ((items.map (fun it => processPlugin pparse plt rn dr it.2 it.1)).map
      (fun r => r.2.2)).sum =
    (items.filter
      (fun it => (get_latest_version it.2.repo it.1.is_commit_hash).isNone)).length
  induction items with
  | nil => rfl
  | cons it rest ih =>
    rw [List.map_cons, List.map_cons, List.sum_cons, ih, List.filter_cons]
    have he := processPlugin_errors pparse plt rn dr it.2 it.1
    cases hg : (get_latest_version it.2.repo it.1.is_commit_hash).isNone with
    | false => simp [he, hg]
    | true => simp [he, hg, Nat.add_comm]

/-- C6: the run exits non-zero iff at least one plugin's latest-version
resolution failed; the error counter counts exactly the resolution
failures, so reconciliation outcomes (issue search or creation results)
never contribute to it or to the exit status. -/
theorem c6_exit {V : Type} (pparse : String → Option V)
    (plt : V → V → Bool) (rn : String) (dr : Bool)
    (items : List (Plugin × PluginEnv)) :
    ((mainRun pparse plt rn dr items).2.2.1 =
      (items.filter
        (fun it => (get_latest_version it.2.repo it.1.is_commit_hash).isNone)).length) ∧
    ((mainRun pparse plt rn dr items).2.2.2 ≠ 0 ↔
      ∃ it ∈ items, get_latest_version it.2.repo it.1.is_commit_hash = none) := by
  refine ⟨mainRun_errors pparse plt rn dr items, ?_⟩
  have hx : (mainRun pparse plt rn dr items).2.2.2 =
      if 0 < (mainRun pparse plt rn dr items).2.2.1 then 1 else 0 := rfl
  rw [hx, mainRun_errors pparse plt rn dr items]
  have hiff : 0 <
      (items.filter
        (fun it => (get_latest_version it.2.repo it.1.is_commit_hash).isNone)).length ↔
      ∃ it ∈ items,
        (get_latest_version it.2.repo it.1.is_commit_hash).isNone = true := by
    rw [List.length_pos, ne_eq, List.filter_eq_nil_iff]
    push_neg
    simp
  by_cases hp : 0 <
      (items.filter
        (fun it => (get_latest_version it.2.repo it.1.is_commit_hash).isNone)).length
  · rw [if_pos hp]
    simp only [ne_eq, one_ne_zero, not_false_eq_true, true_iff]
    obtain ⟨it, hit, hf⟩ := hiff.mp hp
    exact ⟨it, hit, Option.isNone_iff_eq_none.mp hf⟩
  · rw [if_neg hp]
    constructor
    · intro h0
      exact absurd rfl h0
    · rintro ⟨it, hit, hnone⟩
      exact absurd
        (hiff.mpr ⟨it, hit, Option.isNone_iff_eq_none.mpr hnone⟩) hp

/-! ## C7: dry-run never writes -/

lemma create_issue_dry_no_write (cr : Except GhError Nat) (rn : String)
    (p : Plugin) (nv : String) :
    (create_issue cr rn p nv true).filter isWrite = [] := rfl

lemma processPlugin_dry_no_write {V : Type} (pparse : String → Option V)
    (plt : V → V → Bool) (rn : String) (env : PluginEnv) (p : Plugin) :
    ((processPlugin pparse plt rn true env p).1).filter isWrite = [] := by
  cases hg : get_latest_version env.repo p.is_commit_hash with
  | none =>
    unfold processPlugin
    rw [hg]
    rfl
  | some latest =>
    rw [processPlugin_some pparse plt rn true env p latest hg]
    split
    · split
      · rfl
      · simp only [List.filter_append, create_issue_dry_no_write]
        rfl
    · rfl

/-- C7: with dry-run enabled no remote issue-creation write ever appears in
the run's effect trace, whatever the plugins, worlds, and outdated
statuses; the dry-run reconciler emits exactly the would-be title, labels
and body on standard output. -/
theorem c7_dry_run {V : Type} (pparse : String → Option V)
    (plt : V → V → Bool) (rn : String)
    (items : List (Plugin × PluginEnv)) :
    ((mainRun pparse plt rn true items).1.filter isWrite = []) ∧
    (∀ cr rn2 p nv, create_issue cr rn2 p nv true =
      [Effect.printOut "\n[DRY RUN] Would create issue:",
       Effect.printOut ("  Title: " ++ issueTitle p.name nv),
       Effect.printOut "  Labels: version-update, automated",
       Effect.printOut ("  Body:\n" ++ issueBody p nv)]) := by
  constructor
  · show ((((items.map
        (fun it => processPlugin pparse plt rn true it.2 it.1)).map
          (fun r => r.1)).flatten ++
        [Effect.printOut ("Summary: plugins checked " ++
          toString items.length ++ ", updates found " ++
          toString (((items.map
            (fun it => processPlugin pparse plt rn true it.2 it.1)).map
              (fun r => r.2.1)).sum) ++ ", errors " ++
          toString (((items.map
            (fun it => processPlugin pparse plt rn true it.2 it.1)).map
              (fun r => r.2.2)).sum))]).filter isWrite) = []
    rw [List.filter_append]
    have hf : (((items.map
        (fun it => processPlugin pparse plt rn true it.2 it.1)).map
          (fun r => r.1)).flatten).filter isWrite = [] := by
      induction items with
      | nil => rfl
      | cons it rest ih =>
        rw [List.map_cons, List.map_cons, List.flatten_cons,
          List.filter_append, ih,
          processPlugin_dry_no_write pparse plt rn it.2 it.1]
        rfl
    rw [hf]
    rfl
  · intro cr rn2 p nv
    rfl

/-! ## C10: a failed duplicate check still creates -/

/-- C10: when the search for an existing tracking issue fails with a
hosting-service error, check_for_existing_issue answers false, and for an
outdated plugin the orchestrator therefore proceeds into create_issue (an
attempted, possibly duplicate, creation) and counts the update, exactly as
if no issue existed. -/
theorem c10_failed_search {V : Type} (pparse : String → Option V)
    (plt : V → V → Bool) (rn : String) (dr : Bool) (env : PluginEnv)
    (p : Plugin) (latest : String) (e : GhError)
    (hs : env.issue_titles = Except.error e)
    (h : get_latest_version env.repo p.is_commit_hash = some latest)
    (ho : any_outdated pparse plt latest p.is_commit_hash p.versions = true) :
    check_for_existing_issue env.issue_titles p.name latest = false ∧
    (processPlugin pparse plt rn dr env p).1 =
      [Effect.printOut ("Checking " ++ p.name ++ "..."),
       Effect.printOut ("UPDATE AVAILABLE: " ++ latest)] ++
      create_issue env.create_result rn p latest dr ∧
    (processPlugin pparse plt rn dr env p).2.1 = 1 := by
  have hc : check_for_existing_issue env.issue_titles p.name latest = false := by
    rw [hs]
    rfl
  rw [processPlugin_some pparse plt rn dr env p latest h, if_pos ho, hc]
  exact ⟨rfl, rfl, rfl⟩

/-- Witness for C10: a failed issue search on an outdated release plugin,
evaluated concretely: the duplicate check answers false and the trace ends
in the create_issue effects with the update counted. -/
theorem c10_failed_search_witness :
    check_for_existing_issue envSearchFail.issue_titles pluginRel.name
      "1.3.0" = false ∧
    (processPlugin releaseParse releaseLt "o/r" true envSearchFail
        pluginRel).1 =
      [Effect.printOut ("Checking " ++ pluginRel.name ++ "..."),
       Effect.printOut ("UPDATE AVAILABLE: " ++ "1.3.0")] ++
      create_issue envSearchFail.create_result "o/r" pluginRel "1.3.0" true ∧
    (processPlugin releaseParse releaseLt "o/r" true envSearchFail
        pluginRel).2.1 = 1 :=
  c10_failed_search releaseParse releaseLt "o/r" true envSearchFail pluginRel
    "1.3.0" GhError.other rfl (by decide) (by decide)

/-! ## C9: the no-source marker -/

/-- C9: a table row whose first cell contains the no-source marker never
produces a record, whatever the rest of the row holds. -/
theorem c9_no_src (line : List Char)
    (h : containsSub noSrcMarker ((cellsOf line).headD []) = true) :
    parseRow line = none := by
  unfold parseRow
  split
  · rfl
  · simp [h]

/-- Witness for C9: a marker row with a perfectly well-formed link is still
dropped. -/
theorem c9_no_src_witness :
    parseRow "| **NO SRC** [P](https://github.com/o/r) | 1.0.0 |".data = none :=
  c9_no_src _ (by decide)

end VC
